import Mathlib

/-!
Verification of the mesh/topology engine and discrete operators described by
the repository's notebooks (a structured raster lattice with nodes, directed
links, cells, faces, node/link boundary status, the gradient-at-link and
flux-divergence-at-node operators, and the adaptive groundwater solver).

The library functions exercised by the notebooks are not shipped in the
repository; they are modelled here from the specification's description,
and every modelled table is checked against the concrete arrays printed in
the notebooks (3 x 4 raster grids, `active_links`, `links_at_node`,
`link_dirs_at_node`, `cell_at_node`, gradient and divergence outputs).
Rational numbers stand in for the floating-point arrays; all printed values
are exactly representable.
-/

/-- Modelled from the spec: the four per-node boundary status codes
(CORE, FIXED_VALUE, FIXED_GRADIENT, CLOSED). -/
inductive NodeStatus where
  | core
  | fixedValue
  | fixedGradient
  | closed
deriving DecidableEq, Repr

/-- Modelled from the spec: the three derived per-link status codes
(ACTIVE, FIXED, INACTIVE). -/
inductive LinkStatus where
  | active
  | fixed
  | inactive
deriving DecidableEq, Repr

/-- Modelled from the spec: a structured raster lattice (`RasterModelGrid`):
row count, column count, the two axis spacings, and the mutable per-node
status codes.  Nodes are numbered row-major from the bottom-left origin,
matching the coordinate listing printed in the grid demo notebook. -/
structure RasterGrid where
  rows : Nat
  cols : Nat
  dx : Rat
  dy : Rat
  status_at_node : Nat → NodeStatus

namespace RasterGrid

/-- Total number of nodes. -/
def number_of_nodes (g : RasterGrid) : Nat := g.rows * g.cols

/-- Row index of a node (y direction). -/
def node_row (g : RasterGrid) (n : Nat) : Nat := n / g.cols

/-- Column index of a node (x direction). -/
def node_col (g : RasterGrid) (n : Nat) : Nat := n % g.cols

/-- x coordinate of a node. -/
def x_of_node (g : RasterGrid) (n : Nat) : Rat := (g.node_col n : Rat) * g.dx

/-- y coordinate of a node. -/
def y_of_node (g : RasterGrid) (n : Nat) : Rat := (g.node_row n : Rat) * g.dy

/-- Number of links in one full row band: the `cols - 1` horizontal links of
a node row followed by the `cols` vertical links rising from it. -/
def band (g : RasterGrid) : Nat := 2 * g.cols - 1

/-- Total number of links: `cols - 1` horizontals per node row plus `cols`
verticals per gap between node rows (17 on the 3 x 4 grid). -/
def number_of_links (g : RasterGrid) : Nat :=
  g.rows * (g.cols - 1) + (g.rows - 1) * g.cols

/-- Link id of the horizontal link from node `(r, c)` to node `(r, c+1)`. -/
def horizId (g : RasterGrid) (r c : Nat) : Nat := r * g.band + c

/-- Link id of the vertical link from node `(r, c)` to node `(r+1, c)`. -/
def vertId (g : RasterGrid) (r c : Nat) : Nat := r * g.band + (g.cols - 1) + c

/-- Whether a link id denotes a horizontal (east-pointing) link. -/
def is_horizontal (g : RasterGrid) (e : Nat) : Bool := e % g.band < g.cols - 1

/-- Tail node (base of the arrow) of a link.  Links are ordered band by band,
matching the tail/head listing printed in the grid demo notebook. -/
def node_at_link_tail (g : RasterGrid) (e : Nat) : Nat :=
  let r := e / g.band
  let k := e % g.band
  if k < g.cols - 1 then r * g.cols + k else r * g.cols + (k - (g.cols - 1))

/-- Head node (tip of the arrow) of a link; horizontal links point east,
vertical links point north. -/
def node_at_link_head (g : RasterGrid) (e : Nat) : Nat :=
  if g.is_horizontal e then g.node_at_link_tail e + 1
  else g.node_at_link_tail e + g.cols

/-- Length of a link: the axis spacing along its direction (the Euclidean
distance between its axis-aligned endpoints). -/
def length_of_link (g : RasterGrid) (e : Nat) : Rat :=
  if g.is_horizontal e then g.dx else g.dy

/-- Width of the dual face crossing a link: the perpendicular axis spacing. -/
def width_of_face_at_link (g : RasterGrid) (e : Nat) : Rat :=
  if g.is_horizontal e then g.dy else g.dx

/-- Area of every dual cell of the raster (closed-form product of spacings). -/
def cell_area (g : RasterGrid) : Rat := g.dx * g.dy

/-- Whether a node lies on the grid perimeter. -/
def is_perimeter (g : RasterGrid) (n : Nat) : Bool :=
  g.node_row n = 0 || g.node_row n = g.rows - 1 ||
    g.node_col n = 0 || g.node_col n = g.cols - 1

/-- Dual-cell id at a node, `-1` where the node has no cell (printed as
`cell_at_node` in the grid demo notebook). -/
def cell_at_node (g : RasterGrid) (n : Nat) : Int :=
  let r := g.node_row n
  let c := g.node_col n
  if 0 < r ∧ r + 1 < g.rows ∧ 0 < c ∧ c + 1 < g.cols then
    ((r - 1) * (g.cols - 2) + (c - 1) : Nat)
  else -1

/-- Number of dual cells. -/
def number_of_cells (g : RasterGrid) : Nat := (g.rows - 2) * (g.cols - 2)

/-- Number of patches (primal polygons). -/
def number_of_patches (g : RasterGrid) : Nat := (g.rows - 1) * (g.cols - 1)

/-- Number of dual corners. -/
def number_of_corners (g : RasterGrid) : Nat := (g.rows - 1) * (g.cols - 1)

/-- Number of dual faces: one for every link bordered by at least one cell. -/
def number_of_faces (g : RasterGrid) : Nat :=
  (g.rows - 1) * (g.cols - 2) + (g.rows - 2) * (g.cols - 1)

/-- Modelled from the spec: derived link status as a function of the two
endpoint node statuses.  A link is ACTIVE when it joins a CORE node to a
CORE or FIXED_VALUE node, FIXED when it joins a CORE node to a
FIXED_GRADIENT node, and INACTIVE otherwise; the recorded `active_links`
arrays of the grid demo notebook (before and after closing the bottom row)
pin this table down on the cases they exercise, and in particular show that
a link with no CORE endpoint is not ACTIVE. -/
def linkStatusOf : NodeStatus → NodeStatus → LinkStatus
  | NodeStatus.core, NodeStatus.core => LinkStatus.active
  | NodeStatus.core, NodeStatus.fixedValue => LinkStatus.active
  | NodeStatus.fixedValue, NodeStatus.core => LinkStatus.active
  | NodeStatus.core, NodeStatus.fixedGradient => LinkStatus.fixed
  | NodeStatus.fixedGradient, NodeStatus.core => LinkStatus.fixed
  | _, _ => LinkStatus.inactive

/-- Derived status of a link of the grid. -/
def status_at_link (g : RasterGrid) (e : Nat) : LinkStatus :=
  linkStatusOf (g.status_at_node (g.node_at_link_tail e))
    (g.status_at_node (g.node_at_link_head e))

/-- The filtered list of ACTIVE link ids, in ascending order. -/
def active_links (g : RasterGrid) : List Nat :=
  (List.range g.number_of_links).filter
    (fun e => g.status_at_link e = LinkStatus.active)

/-- The filtered list of CORE node ids, in ascending order. -/
def core_nodes (g : RasterGrid) : List Nat :=
  (List.range g.number_of_nodes).filter
    (fun n => g.status_at_node n = NodeStatus.core)

/-- Replace the entire node-status assignment (bulk status mutation). -/
def set_status (g : RasterGrid) (f : Nat → NodeStatus) : RasterGrid :=
  { g with status_at_node := f }

/-- Modelled from the spec: the gradient of a node field along one link,
`(field[head] - field[tail]) / length`, as printed by `calc_grad_at_link`
on the 3 x 4 grid. -/
def grad_at_link (g : RasterGrid) (z : Nat → Rat) (e : Nat) : Rat :=
  (z (g.node_at_link_head e) - z (g.node_at_link_tail e)) / g.length_of_link e

/-- Modelled from the spec: `calc_grad_at_link`, the dense array of link
gradients, one entry for every link of the grid regardless of status. -/
def calc_grad_at_link (g : RasterGrid) (z : Nat → Rat) : List Rat :=
  (List.range g.number_of_links).map (g.grad_at_link z)

/-- The fixed-width (4-slot) links-at-node adjacency table, slots ordered
clockwise from east (E, N, W, S), sentinel `-1` in unused slots; printed as
`links_at_node` in the grid demo notebook.  Slot indices beyond 3 repeat
the south slot; the physical table is slots 0..3. -/
def links_at_node (g : RasterGrid) (n : Nat) (s : Nat) : Int :=
  let r := g.node_row n
  let c := g.node_col n
  if s = 0 then (if c + 1 < g.cols then (g.horizId r c : Int) else -1)
  else if s = 1 then (if r + 1 < g.rows then (g.vertId r c : Int) else -1)
  else if s = 2 then (if 0 < c then (g.horizId r (c - 1) : Int) else -1)
  else (if 0 < r then (g.vertId (r - 1) c : Int) else -1)

/-- The link-direction table paired with `links_at_node`: `-1` where the
link leaves the node (node is its tail), `+1` where it enters (node is its
head), `0` in sentinel slots; printed as `link_dirs_at_node`. -/
def link_dirs_at_node (g : RasterGrid) (n : Nat) (s : Nat) : Int :=
  let r := g.node_row n
  let c := g.node_col n
  if s = 0 then (if c + 1 < g.cols then -1 else 0)
  else if s = 1 then (if r + 1 < g.rows then -1 else 0)
  else if s = 2 then (if 0 < c then 1 else 0)
  else (if 0 < r then 1 else 0)

/-- The signed sum of face-weighted link values entering a node, computed
slot by slot from `links_at_node` and `link_dirs_at_node` exactly as the
grid demo notebook does (`fluxes_at_node * link_dirs_at_node`, summed);
sentinel slots contribute zero through their zero direction. -/
def flux_into_node_sum (g : RasterGrid) (q : Nat → Rat) (n : Nat) : Rat :=
  ∑ s ∈ Finset.range 4,
    (g.link_dirs_at_node n s : Rat) * q (g.links_at_node n s).toNat *
      g.width_of_face_at_link (g.links_at_node n s).toNat

/-- Modelled from the spec: `calc_flux_div_at_node` at one node — net
outflux through the faces of the node's cell divided by the cell's area,
and exactly 0 at every node without a cell.  The recorded outputs
(0.00164 and 0.00094 at the two core nodes of the 3 x 4 grid) fix the
orientation: outgoing flux counts positively. -/
def flux_div_at_node (g : RasterGrid) (q : Nat → Rat) (n : Nat) : Rat :=
  if g.cell_at_node n = -1 then 0
  else -(g.flux_into_node_sum q n) / g.cell_area

/-- Modelled from the spec: `calc_flux_div_at_node`, the dense per-node
array of flux divergences. -/
def calc_flux_div_at_node (g : RasterGrid) (q : Nat → Rat) : List Rat :=
  (List.range g.number_of_nodes).map (g.flux_div_at_node q)

/-- Sum of face-weighted link values over the links pointing out of a node
(the node is their tail). -/
def outflow_sum (g : RasterGrid) (q : Nat → Rat) (n : Nat) : Rat :=
  ∑ e ∈ Finset.range g.number_of_links,
    if g.node_at_link_tail e = n then q e * g.width_of_face_at_link e else 0

/-- Sum of face-weighted link values over the links pointing into a node
(the node is their head). -/
def inflow_sum (g : RasterGrid) (q : Nat → Rat) (n : Nat) : Rat :=
  ∑ e ∈ Finset.range g.number_of_links,
    if g.node_at_link_head e = n then q e * g.width_of_face_at_link e else 0

/-- The flux-divergence formula with the orientation convention exactly as
the specification words it: `+1` where the edge points into the node and
`-1` where it points out, summed over the node's faces and divided by the
cell area (0 at cell-less nodes).  Stated for comparison with
`flux_div_at_node`. -/
def flux_div_specSign (g : RasterGrid) (q : Nat → Rat) (n : Nat) : Rat :=
  if g.cell_at_node n = -1 then 0
  else (g.inflow_sum q n - g.outflow_sum q n) / g.cell_area

/-- Set the status of every node in `S` to CLOSED, leaving the rest. -/
def close_nodes (g : RasterGrid) (S : List Nat) : RasterGrid :=
  { g with status_at_node :=
      fun n => if n ∈ S then NodeStatus.closed else g.status_at_node n }

/-- x coordinate of a link's defining point, its midpoint (the grid demo
notebook: links are listed in order of the coordinates of their
midpoints). -/
def x_of_link (g : RasterGrid) (e : Nat) : Rat :=
  (g.x_of_node (g.node_at_link_tail e) + g.x_of_node (g.node_at_link_head e)) / 2

/-- y coordinate of a link's midpoint. -/
def y_of_link (g : RasterGrid) (e : Nat) : Rat :=
  (g.y_of_node (g.node_at_link_tail e) + g.y_of_node (g.node_at_link_head e)) / 2

/-- x coordinate of a dual cell's defining point: the node it is centred
on sits at interior column `k % (cols - 2) + 1`. -/
def x_of_cell (g : RasterGrid) (k : Nat) : Rat :=
  (((k % (g.cols - 2) : Nat) : Rat) + 1) * g.dx

/-- y coordinate of a dual cell's defining point (its node's row). -/
def y_of_cell (g : RasterGrid) (k : Nat) : Rat :=
  (((k / (g.cols - 2) : Nat) : Rat) + 1) * g.dy

/-- x coordinate of a dual corner: corners sit at the centres of the
patches, on a `(rows - 1) x (cols - 1)` row-major lattice offset by half a
spacing. -/
def x_of_corner (g : RasterGrid) (k : Nat) : Rat :=
  (((k % (g.cols - 1) : Nat) : Rat) + 1/2) * g.dx

/-- y coordinate of a dual corner. -/
def y_of_corner (g : RasterGrid) (k : Nat) : Rat :=
  (((k / (g.cols - 1) : Nat) : Rat) + 1/2) * g.dy

/-- x coordinate of a patch's defining point, its centroid: patches form
the same `(rows - 1) x (cols - 1)` row-major lattice as the corners. -/
def x_of_patch (g : RasterGrid) (k : Nat) : Rat :=
  (((k % (g.cols - 1) : Nat) : Rat) + 1/2) * g.dx

/-- y coordinate of a patch's centroid. -/
def y_of_patch (g : RasterGrid) (k : Nat) : Rat :=
  (((k / (g.cols - 1) : Nat) : Rat) + 1/2) * g.dy

/-- The links crossed by a dual face, in ascending link order: exactly the
links with at least one cell-bearing endpoint (7 on the 3 x 4 grid,
matching its face sketch); the face with id `i` crosses the `i`-th such
link at its midpoint. -/
def face_links (g : RasterGrid) : List Nat :=
  (List.range g.number_of_links).filter
    (fun e => g.cell_at_node (g.node_at_link_tail e) ≠ -1 ∨
      g.cell_at_node (g.node_at_link_head e) ≠ -1)

/-- The set of cell-bearing (interior) node ids. -/
def cellNodes (g : RasterGrid) : Finset Nat :=
  (Finset.range g.number_of_nodes).filter (fun n => g.cell_at_node n ≠ -1)

/-- Net face-weighted outflow across the boundary of the cell-bearing
region: every link contributes its value wherever exactly one of its
endpoints bears a cell, signed outward (links interior to the region
cancel). -/
def gw_out (g : RasterGrid) (q : Nat → Rat) : Rat :=
  ∑ e ∈ Finset.range g.number_of_links,
    ((if g.cell_at_node (g.node_at_link_tail e) = -1 then 0
      else q e * g.width_of_face_at_link e) -
      (if g.cell_at_node (g.node_at_link_head e) = -1 then 0
       else q e * g.width_of_face_at_link e))

end RasterGrid

/-- Modelled from the spec: the static data of the adaptive transport
solver (the groundwater component): the grid, hydraulic conductivity,
porosity, uniform recharge rate, aquifer base and land-surface elevation
fields, and the regularization blend applied to the mean saturated
thickness when forming the transmissivity.  The spec fixes only that the
blend is some smooth scalar function controlled by a regularization scale,
so it enters the model as an arbitrary function of the thickness. -/
structure GWModel where
  g : RasterGrid
  K : Rat
  porosity : Rat
  recharge : Rat
  base : Nat → Rat
  elev : Nat → Rat
  reg : Rat → Rat

/-- The evolving solver state: the water-table field plus the three
cumulative mass-balance accumulators (volumes). -/
structure GWState where
  wt : Nat → Rat
  cumRecharge : Rat
  cumGw : Rat
  cumSw : Rat

namespace GWModel

/-- Regularized transmissivity at a link: the blend applied to the mean
saturated thickness of the two endpoints. -/
def transmissivity (m : GWModel) (wt : Nat → Rat) (e : Nat) : Rat :=
  m.reg (((wt (m.g.node_at_link_tail e) - m.base (m.g.node_at_link_tail e)) +
    (wt (m.g.node_at_link_head e) - m.base (m.g.node_at_link_head e))) / 2)

/-- Subsurface Darcy flux on a link: `-K * transmissivity * gradient` on
ACTIVE links; zero on FIXED and INACTIVE links (INACTIVE links are
forbidden from carrying flux, and the solver computes none there). -/
def gw_flux (m : GWModel) (wt : Nat → Rat) (e : Nat) : Rat :=
  if m.g.status_at_link e = LinkStatus.active then
    -(m.K * m.transmissivity wt e * m.g.grad_at_link wt e)
  else 0

/-- Total storage: the state integrated against porosity and cell area
over the cell-bearing nodes (`calc_total_storage`). -/
def calc_total_storage (m : GWModel) (wt : Nat → Rat) : Rat :=
  ∑ n ∈ m.g.cellNodes, wt n * m.porosity * m.g.cell_area

/-- Instantaneous recharge flux into the domain
(`calc_recharge_flux_in`). -/
def calc_recharge_flux_in (m : GWModel) : Rat :=
  ∑ n ∈ m.g.cellNodes, m.recharge * m.g.cell_area

/-- The raw forward-Euler update value at a node, before capping at the
land surface: `state + dt * (source - divergence) / porosity`. -/
def rawNew (m : GWModel) (dt : Rat) (s : GWState) (n : Nat) : Rat :=
  s.wt n +
    dt * (m.recharge - m.g.flux_div_at_node (m.gw_flux s.wt) n) / m.porosity

/-- The state increment redirected to surface outflow at a node: the part
of the raw update exceeding the land-surface elevation. -/
def overflow (m : GWModel) (dt : Rat) (s : GWState) (n : Nat) : Rat :=
  if m.elev n < m.rawNew dt s n then m.rawNew dt s n - m.elev n else 0

/-- Modelled from the spec: `stepFixed(dt)` (`run_one_step`): one explicit
forward-Euler update of the water table at cell-bearing nodes, with any
increment beyond the land surface redirected to the surface-outflow
accumulator, and the three cumulative flux integrals advanced by their
instantaneous values times `dt`. -/
def stepFixed (m : GWModel) (dt : Rat) (s : GWState) : GWState :=
  { wt := fun n =>
      if m.g.cell_at_node n = -1 then s.wt n
      else if m.elev n < m.rawNew dt s n then m.elev n
      else m.rawNew dt s n
    cumRecharge := s.cumRecharge + dt * m.calc_recharge_flux_in
    cumGw := s.cumGw + dt * m.g.gw_out (m.gw_flux s.wt)
    cumSw := s.cumSw +
      ∑ n ∈ m.g.cellNodes, m.overflow dt s n * m.porosity * m.g.cell_area }

/-- Modelled from the spec: the Courant-type substep bound, derived from
the worst ratio of `K * transmissivity * |gradient|` to
`porosity * edge length` over the links. -/
def stabilityBound (m : GWModel) (wt : Nat → Rat) : Rat :=
  1 / (((List.range m.g.number_of_links).map (fun e =>
    m.K * m.transmissivity wt e * |m.g.grad_at_link wt e| /
      (m.porosity * m.g.length_of_link e))).foldr max 0)

/-- Modelled from the spec: `stepAdaptive(totalDuration, courant)`
(`run_with_adaptive_time_step_solver`): repeatedly take the
stability-bounded substep, clipped so as not to overshoot the remaining
duration, until the duration is consumed.  The recursion carries explicit
fuel; exhausting the fuel with duration left corresponds to the spec's
`NonConvergent` failure. -/
def stepAdaptive (m : GWModel) (courant : Rat) :
    Nat → Rat → GWState → GWState
  | 0, _, s => s
  | Nat.succ fuel, remaining, s =>
    if remaining ≤ 0 then s
    else
      let b := courant * m.stabilityBound s.wt
      let dt := if b < remaining then b else remaining
      stepAdaptive m courant fuel (remaining - dt) (m.stepFixed dt s)

end GWModel

/-- Perimeter nodes FIXED_VALUE, interior nodes CORE: the default status
assignment of a freshly built raster grid, as exhibited by `core_nodes`
returning `[5, 6]` on the 3 x 4 demo grid. -/
def defaultStatus (rows cols : Nat) : Nat → NodeStatus := fun n =>
  if n / cols = 0 ∨ n / cols = rows - 1 ∨ n % cols = 0 ∨ n % cols = cols - 1
  then NodeStatus.fixedValue else NodeStatus.core

/-- The 3 x 4 unit-spacing demo grid `smg` of the grid demo notebook. -/
def smg : RasterGrid :=
  { rows := 3, cols := 4, dx := 1, dy := 1, status_at_node := defaultStatus 3 4 }

/-- The node statuses of the tiny-grid scenario as the specification words
it: the two interior nodes CORE, every perimeter node CLOSED. -/
def statusScenario : Nat → NodeStatus := fun n =>
  if n = 5 ∨ n = 6 then NodeStatus.core else NodeStatus.closed

/-- The 3 x 4 grid of the gradient-and-divergence notebook, built with
spacing 10.0 (`RasterModelGrid((3, 4), 10.0)`). -/
def mg10 : RasterGrid :=
  { rows := 3, cols := 4, dx := 10, dy := 10, status_at_node := statusScenario }

/-- The same 3 x 4 lattice with unit spacing, for comparison with the
claimed scenario. -/
def mg1 : RasterGrid :=
  { rows := 3, cols := 4, dx := 1, dy := 1, status_at_node := statusScenario }

/-- The scalar node field of the tiny-grid scenario: 5.0 at node 5, 3.6 at
node 6, zero elsewhere (`topographic__elevation`). -/
def zScenario : Nat → Rat := fun n =>
  if n = 5 then 5 else if n = 6 then 18 / 5 else 0

/-- The 17-entry gradient sequence printed by the notebook:
{0,0,0, 0,0.5,0.36,0, 0.5,-0.14,-0.36,0, -0.5,-0.36,0, 0,0,0}. -/
def gradPrinted : List Rat :=
  [0, 0, 0,
   0, 1/2, 9/25, 0,
   1/2, -(7/50), -(9/25), 0,
   -(1/2), -(9/25), 0,
   0, 0, 0]

/-- The unit flux field of the scenario: the gradient scaled by minus the
conductivity 0.01 (`q = -D * dzdx`). -/
def qScenario : Nat → Rat := fun e => -(1/100) * mg10.grad_at_link zScenario e

/-- The divergence array printed by the notebook: 0.00164 and 0.00094 at
the two interior nodes, zero elsewhere. -/
def divPrinted : List Rat :=
  [0, 0, 0, 0,
   0, 41/25000, 47/50000, 0,
   0, 0, 0, 0]

/-- The edge-status derivation table amended to match the recorded
behaviour: INACTIVE whenever an endpoint is CLOSED or neither endpoint is
CORE (in particular for two FIXED_VALUE endpoints), FIXED for a CORE
endpoint facing a FIXED_GRADIENT one, ACTIVE otherwise (a CORE endpoint
facing a CORE or FIXED_VALUE one). -/
def edgeStatusAmended (s t : NodeStatus) : LinkStatus :=
  if s = NodeStatus.closed ∨ t = NodeStatus.closed then LinkStatus.inactive
  else if (s = NodeStatus.core ∧ t = NodeStatus.fixedGradient) ∨
      (s = NodeStatus.fixedGradient ∧ t = NodeStatus.core) then LinkStatus.fixed
  else if s = NodeStatus.core ∨ t = NodeStatus.core then LinkStatus.active
  else LinkStatus.inactive

/-- A degenerate 1 x 1 structured lattice (positive dimensions and
spacings, hence a valid construction per the spec). -/
def grid1x1 : RasterGrid :=
  { rows := 1, cols := 1, dx := 1, dy := 1,
    status_at_node := fun _ => NodeStatus.fixedValue }

/-- A small concrete solver instance on the spacing-10 grid, used to
instantiate the mass-balance theorem. -/
def gwDemoModel : GWModel :=
  { g := mg10, K := 1/100, porosity := 1/5, recharge := 1/10,
    base := fun _ => 0, elev := fun _ => 2, reg := fun x => x }


namespace RasterGrid

theorem band_pos (g : RasterGrid) (hc : 1 ≤ g.cols) : 0 < g.band := by
  unfold band; omega

theorem number_of_links_eq (g : RasterGrid) (hr : 1 ≤ g.rows) (hc : 1 ≤ g.cols) :
    g.number_of_links = (g.rows - 1) * g.band + (g.cols - 1) := by
  unfold number_of_links band
  have h1 : 1 ≤ 2 * g.cols := by omega
  zify [hr, hc, h1]
  ring

/-- Uniqueness of the row/column decomposition `r * n + c`. -/
theorem row_col_unique {n a b a' b' : Nat} (hb : b < n) (hb' : b' < n)
    (h : a * n + b = a' * n + b') : a = a' ∧ b = b' := by
  have hn : 0 < n := by omega
  have e1 : (a * n + b) / n = a := by
    rw [Nat.add_comm, Nat.add_mul_div_right _ _ hn, Nat.div_eq_of_lt hb, Nat.zero_add]
  have e2 : (a' * n + b') / n = a' := by
    rw [Nat.add_comm, Nat.add_mul_div_right _ _ hn, Nat.div_eq_of_lt hb', Nat.zero_add]
  have ha : a = a' := by rw [← e1, ← e2, h]
  subst ha
  exact ⟨rfl, by omega⟩

theorem horizId_lt (g : RasterGrid) {r c : Nat} (hr : r < g.rows)
    (hc : c < g.cols - 1) : g.horizId r c < g.number_of_links := by
  have hc1 : 1 ≤ g.cols := by omega
  have hr1 : 1 ≤ g.rows := by omega
  rw [g.number_of_links_eq hr1 hc1]
  unfold horizId
  have h1 : r * g.band ≤ (g.rows - 1) * g.band :=
    Nat.mul_le_mul_right _ (by omega)
  omega

theorem vertId_lt (g : RasterGrid) {r c : Nat} (hr : r + 1 < g.rows)
    (hc : c < g.cols) : g.vertId r c < g.number_of_links := by
  have hc1 : 1 ≤ g.cols := by omega
  have hr1 : 1 ≤ g.rows := by omega
  rw [g.number_of_links_eq hr1 hc1]
  unfold vertId
  have h1 : r * g.band ≤ (g.rows - 2) * g.band :=
    Nat.mul_le_mul_right _ (by omega)
  have h2 : (g.rows - 1) * g.band = (g.rows - 2) * g.band + g.band := by
    have : g.rows - 1 = (g.rows - 2) + 1 := by omega
    rw [this, Nat.succ_mul]
  have h3 : c < g.band := by unfold band; omega
  omega

theorem band_div_mod (g : RasterGrid) {r k : Nat} (hk : k < g.band) :
    (r * g.band + k) / g.band = r ∧ (r * g.band + k) % g.band = k := by
  have hW : 0 < g.band := by omega
  constructor
  · rw [Nat.add_comm, Nat.add_mul_div_right _ _ hW, Nat.div_eq_of_lt hk,
      Nat.zero_add]
  · rw [Nat.add_comm, Nat.add_mul_mod_self_right, Nat.mod_eq_of_lt hk]

theorem horizId_decode (g : RasterGrid) {c : Nat} (r : Nat) (hc : c < g.cols - 1) :
    g.is_horizontal (g.horizId r c) = true ∧
      g.node_at_link_tail (g.horizId r c) = r * g.cols + c ∧
      g.node_at_link_head (g.horizId r c) = r * g.cols + c + 1 := by
  have hcW : c < g.band := by unfold band; omega
  have hdiv : g.horizId r c / g.band = r := (g.band_div_mod hcW).1
  have hmod : g.horizId r c % g.band = c := (g.band_div_mod hcW).2
  have hh : g.is_horizontal (g.horizId r c) = true := by
    unfold is_horizontal
    rw [hmod]
    simpa using hc
  have htail : g.node_at_link_tail (g.horizId r c) = r * g.cols + c := by
    unfold node_at_link_tail
    rw [hdiv, hmod, if_pos hc]
  refine ⟨hh, htail, ?_⟩
  unfold node_at_link_head
  rw [hh, htail]
  simp

theorem vertId_decode (g : RasterGrid) {c : Nat} (r : Nat) (hc : c < g.cols)
    (hc1 : 1 ≤ g.cols) :
    g.is_horizontal (g.vertId r c) = false ∧
      g.node_at_link_tail (g.vertId r c) = r * g.cols + c ∧
      g.node_at_link_head (g.vertId r c) = (r + 1) * g.cols + c := by
  have hkW : g.cols - 1 + c < g.band := by unfold band; omega
  have hva : g.vertId r c = r * g.band + (g.cols - 1 + c) := by
    unfold vertId
    omega
  have hdiv : g.vertId r c / g.band = r := by
    rw [hva]; exact (g.band_div_mod hkW).1
  have hmod : g.vertId r c % g.band = g.cols - 1 + c := by
    rw [hva]; exact (g.band_div_mod hkW).2
  have hh : g.is_horizontal (g.vertId r c) = false := by
    unfold is_horizontal
    rw [hmod]
    simp
  have htail : g.node_at_link_tail (g.vertId r c) = r * g.cols + c := by
    unfold node_at_link_tail
    rw [hdiv, hmod, if_neg (by omega)]
    congr 1
    omega
  refine ⟨hh, htail, ?_⟩
  unfold node_at_link_head
  rw [hh, htail]
  simp [Nat.succ_mul]
  omega

/-- Every valid link id is either a horizontal link `(r,c) -> (r,c+1)` or a
vertical link `(r,c) -> (r+1,c)`, with in-range row and column. -/
theorem link_decode (g : RasterGrid) (e : Nat) (he : e < g.number_of_links) :
    (∃ r c, r < g.rows ∧ c < g.cols - 1 ∧ e = g.horizId r c) ∨
      (∃ r c, r + 1 < g.rows ∧ c < g.cols ∧ e = g.vertId r c) := by
  have hc1 : 1 ≤ g.cols := by
    by_contra h
    have hc0 : g.cols = 0 := by omega
    unfold number_of_links at he
    rw [hc0] at he
    simp at he
  have hr1 : 1 ≤ g.rows := by
    by_contra h
    have hr0 : g.rows = 0 := by omega
    unfold number_of_links at he
    rw [hr0] at he
    simp at he
  have hband : g.band = 2 * g.cols - 1 := rfl
  have hW : 0 < g.band := by omega
  have hdm : g.band * (e / g.band) + e % g.band = e := Nat.div_add_mod e g.band
  have hkW : e % g.band < g.band := Nat.mod_lt _ hW
  have hlinks : g.number_of_links = (g.rows - 1) * g.band + (g.cols - 1) :=
    g.number_of_links_eq hr1 hc1
  have hrlt : e / g.band < g.rows := by
    have hle : (g.rows - 1) * g.band + (g.cols - 1) ≤ g.rows * g.band := by
      have h2 : g.cols - 1 ≤ g.band := by omega
      have h3 : g.rows * g.band = (g.rows - 1) * g.band + g.band := by
        have : g.rows = (g.rows - 1) + 1 := by omega
        conv_lhs => rw [this]
        rw [Nat.succ_mul]
      omega
    exact (Nat.div_lt_iff_lt_mul hW).mpr (by omega)
  by_cases hk : e % g.band < g.cols - 1
  · left
    refine ⟨e / g.band, e % g.band, hrlt, hk, ?_⟩
    unfold horizId
    rw [Nat.mul_comm] at hdm
    omega
  · right
    refine ⟨e / g.band, e % g.band - (g.cols - 1), ?_, by omega, ?_⟩
    · by_contra hcon
      have hreq : e / g.band = g.rows - 1 := by omega
      rw [Nat.mul_comm] at hdm
      rw [hreq] at hdm
      omega
    · unfold vertId
      rw [Nat.mul_comm] at hdm
      have hk2 : g.cols - 1 ≤ e % g.band := by omega
      have hk3 : g.cols - 1 + (e % g.band - (g.cols - 1)) = e % g.band := by
        omega
      omega

theorem node_div_mod (g : RasterGrid) {r c : Nat} (hc : c < g.cols) :
    g.node_row (r * g.cols + c) = r ∧ g.node_col (r * g.cols + c) = c := by
  unfold node_row node_col
  constructor
  · rw [Nat.add_comm, Nat.add_mul_div_right _ _ (by omega : 0 < g.cols),
      Nat.div_eq_of_lt hc, Nat.zero_add]
  · rw [Nat.add_comm, Nat.add_mul_mod_self_right, Nat.mod_eq_of_lt hc]

theorem node_decomp (g : RasterGrid) (n : Nat) (hn : n < g.number_of_nodes) :
    n = g.node_row n * g.cols + g.node_col n ∧
      g.node_row n < g.rows ∧ g.node_col n < g.cols := by
  rcases Nat.eq_zero_or_pos g.cols with h0 | h0
  · exfalso
    unfold number_of_nodes at hn
    rw [h0, Nat.mul_zero] at hn
    omega
  refine ⟨?_, ?_, Nat.mod_lt _ h0⟩
  · unfold node_row node_col
    have := Nat.div_add_mod n g.cols
    rw [Nat.mul_comm] at this
    omega
  · unfold node_row number_of_nodes at *
    exact (Nat.div_lt_iff_lt_mul h0).mpr hn

theorem tail_head_lt (g : RasterGrid) (e : Nat) (he : e < g.number_of_links) :
    g.node_at_link_tail e < g.number_of_nodes ∧
      g.node_at_link_head e < g.number_of_nodes := by
  have hmul : ∀ r c : Nat, r < g.rows → c < g.cols →
      r * g.cols + c < g.number_of_nodes := by
    intro r c hr hc
    unfold number_of_nodes
    have h1 : (r + 1) * g.cols ≤ g.rows * g.cols :=
      Nat.mul_le_mul_right _ (by omega)
    rw [Nat.succ_mul] at h1
    omega
  rcases g.link_decode e he with ⟨r, c, hr, hc, rfl⟩ | ⟨r, c, hr, hc, rfl⟩
  · obtain ⟨_, htail, hhead⟩ := g.horizId_decode r hc
    rw [htail, hhead]
    exact ⟨hmul r c hr (by omega), by
      have := hmul r (c + 1) hr (by omega)
      omega⟩
  · obtain ⟨_, htail, hhead⟩ := g.vertId_decode r hc (by omega)
    rw [htail, hhead]
    exact ⟨hmul r c (by omega) hc, hmul (r + 1) c hr hc⟩

/-- For an interior node, the out-pointing incident links are exactly its
east and north links. -/
theorem outflow_sum_interior (g : RasterGrid) (q : Nat → Rat) {r c : Nat}
    (h0r : 0 < r) (hrr : r + 1 < g.rows) (h0c : 0 < c) (hcc : c + 1 < g.cols) :
    g.outflow_sum q (r * g.cols + c) =
      q (g.horizId r c) * g.width_of_face_at_link (g.horizId r c) +
        q (g.vertId r c) * g.width_of_face_at_link (g.vertId r c) := by
  have hE : g.horizId r c < g.number_of_links :=
    g.horizId_lt (by omega) (by omega)
  have hN : g.vertId r c < g.number_of_links := g.vertId_lt hrr (by omega)
  have hEtail : g.node_at_link_tail (g.horizId r c) = r * g.cols + c :=
    (g.horizId_decode r (by omega)).2.1
  have hNtail : g.node_at_link_tail (g.vertId r c) = r * g.cols + c :=
    (g.vertId_decode r (by omega) (by omega)).2.1
  have hEN : g.horizId r c ≠ g.vertId r c := by
    unfold horizId vertId
    omega
  unfold outflow_sum
  rw [← Finset.sum_subset
      (show ({g.horizId r c, g.vertId r c} : Finset Nat) ⊆
        Finset.range g.number_of_links by
      intro x hx
      rcases Finset.mem_insert.mp hx with h | h
      · rw [h]; exact Finset.mem_range.mpr hE
      · rw [Finset.mem_singleton.mp h]; exact Finset.mem_range.mpr hN)
      (by
      intro e he hnot
      rw [if_neg]
      intro htl
      rcases g.link_decode e (Finset.mem_range.mp he) with
        ⟨r', c', hr', hc', rfl⟩ | ⟨r', c', hr', hc', rfl⟩
      · rw [(g.horizId_decode r' hc').2.1] at htl
        obtain ⟨hre, hce⟩ :=
          row_col_unique (by omega) (by omega) htl
        exact hnot (by rw [hre, hce]; exact Finset.mem_insert_self _ _)
      · rw [(g.vertId_decode r' hc' (by omega)).2.1] at htl
        obtain ⟨hre, hce⟩ :=
          row_col_unique (by omega) (by omega) htl
        exact hnot (by
          rw [hre, hce]
          exact Finset.mem_insert_of_mem (Finset.mem_singleton_self _)))]
  rw [Finset.sum_pair hEN, if_pos hEtail, if_pos hNtail]

/-- For an interior node, the in-pointing incident links are exactly its
west and south links. -/
theorem inflow_sum_interior (g : RasterGrid) (q : Nat → Rat) {r c : Nat}
    (h0r : 0 < r) (hrr : r + 1 < g.rows) (h0c : 0 < c) (hcc : c + 1 < g.cols) :
    g.inflow_sum q (r * g.cols + c) =
      q (g.horizId r (c - 1)) * g.width_of_face_at_link (g.horizId r (c - 1)) +
        q (g.vertId (r - 1) c) * g.width_of_face_at_link (g.vertId (r - 1) c) := by
  have hW : g.horizId r (c - 1) < g.number_of_links :=
    g.horizId_lt (by omega) (by omega)
  have hS : g.vertId (r - 1) c < g.number_of_links :=
    g.vertId_lt (by omega) (by omega)
  have hWhead : g.node_at_link_head (g.horizId r (c - 1)) = r * g.cols + c := by
    have := (g.horizId_decode r (show c - 1 < g.cols - 1 by omega)).2.2
    rw [this]
    omega
  have hShead : g.node_at_link_head (g.vertId (r - 1) c) = r * g.cols + c := by
    have := (g.vertId_decode (r - 1) (show c < g.cols by omega) (by omega)).2.2
    rw [this]
    have : r - 1 + 1 = r := by omega
    rw [this]
  have hWS : g.horizId r (c - 1) ≠ g.vertId (r - 1) c := by
    obtain ⟨r0, rfl⟩ : ∃ r0, r = r0 + 1 := ⟨r - 1, by omega⟩
    simp only [Nat.add_sub_cancel]
    unfold horizId vertId
    have hband : g.band = 2 * g.cols - 1 := rfl
    have hsm : (r0 + 1) * g.band = r0 * g.band + g.band := Nat.succ_mul r0 g.band
    omega
  unfold inflow_sum
  rw [← Finset.sum_subset
      (show ({g.horizId r (c - 1), g.vertId (r - 1) c} : Finset Nat) ⊆
        Finset.range g.number_of_links by
      intro x hx
      rcases Finset.mem_insert.mp hx with h | h
      · rw [h]; exact Finset.mem_range.mpr hW
      · rw [Finset.mem_singleton.mp h]; exact Finset.mem_range.mpr hS)
      (by
      intro e he hnot
      rw [if_neg]
      intro htl
      rcases g.link_decode e (Finset.mem_range.mp he) with
        ⟨r', c', hr', hc', rfl⟩ | ⟨r', c', hr', hc', rfl⟩
      · rw [(g.horizId_decode r' hc').2.2] at htl
        have htl' : r' * g.cols + (c' + 1) = r * g.cols + c := by omega
        obtain ⟨hre, hce⟩ :=
          row_col_unique (by omega) (by omega) htl'
        exact hnot (by
          rw [hre]
          have : c' = c - 1 := by omega
          rw [this]
          exact Finset.mem_insert_self _ _)
      · rw [(g.vertId_decode r' hc' (by omega)).2.2] at htl
        obtain ⟨hre, hce⟩ :=
          row_col_unique (by omega) (by omega) htl
        exact hnot (by
          have : r' = r - 1 := by omega
          rw [this, hce]
          exact Finset.mem_insert_of_mem (Finset.mem_singleton_self _)))]
  rw [Finset.sum_pair hWS, if_pos hWhead, if_pos hShead]

/-- At an interior node the slot-table sum agrees with the incidence sums:
it adds the face-weighted values of the in-pointing links and subtracts
those of the out-pointing links. -/
theorem flux_into_node_sum_interior (g : RasterGrid) (q : Nat → Rat) {r c : Nat}
    (h0r : 0 < r) (hrr : r + 1 < g.rows) (h0c : 0 < c) (hcc : c + 1 < g.cols) :
    g.flux_into_node_sum q (r * g.cols + c) =
      g.inflow_sum q (r * g.cols + c) - g.outflow_sum q (r * g.cols + c) := by
  obtain ⟨hrow, hcol⟩ := g.node_div_mod (r := r) (show c < g.cols by omega)
  have hl0 : g.links_at_node (r * g.cols + c) 0 = (g.horizId r c : Int) := by
    unfold links_at_node
    rw [hrow, hcol]
    simp [hcc]
  have hl1 : g.links_at_node (r * g.cols + c) 1 = (g.vertId r c : Int) := by
    unfold links_at_node
    rw [hrow, hcol]
    simp [hrr]
  have hl2 : g.links_at_node (r * g.cols + c) 2 = (g.horizId r (c - 1) : Int) := by
    unfold links_at_node
    rw [hrow, hcol]
    simp [h0c]
  have hl3 : g.links_at_node (r * g.cols + c) 3 = (g.vertId (r - 1) c : Int) := by
    unfold links_at_node
    rw [hrow, hcol]
    simp [h0r]
  have hd0 : g.link_dirs_at_node (r * g.cols + c) 0 = -1 := by
    unfold link_dirs_at_node
    rw [hrow, hcol]
    simp [hcc]
  have hd1 : g.link_dirs_at_node (r * g.cols + c) 1 = -1 := by
    unfold link_dirs_at_node
    rw [hrow, hcol]
    simp [hrr]
  have hd2 : g.link_dirs_at_node (r * g.cols + c) 2 = 1 := by
    unfold link_dirs_at_node
    rw [hrow, hcol]
    simp [h0c]
  have hd3 : g.link_dirs_at_node (r * g.cols + c) 3 = 1 := by
    unfold link_dirs_at_node
    rw [hrow, hcol]
    simp [h0r]
  unfold flux_into_node_sum
  rw [Finset.sum_range_succ, Finset.sum_range_succ, Finset.sum_range_succ,
    Finset.sum_range_succ, Finset.sum_range_zero]
  rw [hl0, hl1, hl2, hl3, hd0, hd1, hd2, hd3]
  rw [g.inflow_sum_interior q h0r hrr h0c hcc,
    g.outflow_sum_interior q h0r hrr h0c hcc]
  simp [Int.toNat_natCast]
  ring

/-- `flux_div_at_node` in closed form: zero at cell-less nodes, and net
outflow minus inflow over the cell's faces divided by the cell area at
cell-bearing nodes. -/
theorem flux_div_at_node_cases (g : RasterGrid) (q : Nat → Rat) (n : Nat)
    (hn : n < g.number_of_nodes) :
    (g.cell_at_node n = -1 → g.flux_div_at_node q n = 0) ∧
      (g.cell_at_node n ≠ -1 →
        g.flux_div_at_node q n =
          (g.outflow_sum q n - g.inflow_sum q n) / g.cell_area) := by
  constructor
  · intro h
    unfold flux_div_at_node
    rw [if_pos h]
  · intro h
    obtain ⟨hdecomp, hr, hclt⟩ := g.node_decomp n hn
    have hguards : 0 < g.node_row n ∧ g.node_row n + 1 < g.rows ∧
        0 < g.node_col n ∧ g.node_col n + 1 < g.cols := by
      by_contra hcon
      apply h
      unfold cell_at_node
      rw [if_neg hcon]
    obtain ⟨g0r, grr, g0c, gcc⟩ := hguards
    unfold flux_div_at_node
    rw [if_neg h]
    rw [hdecomp, g.flux_into_node_sum_interior q g0r grr g0c gcc]
    ring

theorem sum_outflow_eq (g : RasterGrid) (q : Nat → Rat) :
    ∑ n ∈ g.cellNodes, g.outflow_sum q n =
      ∑ e ∈ Finset.range g.number_of_links,
        (if g.cell_at_node (g.node_at_link_tail e) = -1 then 0
         else q e * g.width_of_face_at_link e) := by
  unfold outflow_sum
  rw [Finset.sum_comm]
  refine Finset.sum_congr rfl ?_
  intro e he
  rw [Finset.sum_ite_eq g.cellNodes (g.node_at_link_tail e)
    (fun _ => q e * g.width_of_face_at_link e)]
  have hmem : g.node_at_link_tail e ∈ g.cellNodes ↔
      ¬(g.cell_at_node (g.node_at_link_tail e) = -1) := by
    unfold cellNodes
    rw [Finset.mem_filter, Finset.mem_range]
    have := (g.tail_head_lt e (Finset.mem_range.mp he)).1
    tauto
  by_cases hc : g.cell_at_node (g.node_at_link_tail e) = -1
  · rw [if_neg (fun hin => (hmem.mp hin) hc), if_pos hc]
  · rw [if_pos (hmem.mpr hc), if_neg hc]

theorem sum_inflow_eq (g : RasterGrid) (q : Nat → Rat) :
    ∑ n ∈ g.cellNodes, g.inflow_sum q n =
      ∑ e ∈ Finset.range g.number_of_links,
        (if g.cell_at_node (g.node_at_link_head e) = -1 then 0
         else q e * g.width_of_face_at_link e) := by
  unfold inflow_sum
  rw [Finset.sum_comm]
  refine Finset.sum_congr rfl ?_
  intro e he
  rw [Finset.sum_ite_eq g.cellNodes (g.node_at_link_head e)
    (fun _ => q e * g.width_of_face_at_link e)]
  have hmem : g.node_at_link_head e ∈ g.cellNodes ↔
      ¬(g.cell_at_node (g.node_at_link_head e) = -1) := by
    unfold cellNodes
    rw [Finset.mem_filter, Finset.mem_range]
    have := (g.tail_head_lt e (Finset.mem_range.mp he)).2
    tauto
  by_cases hc : g.cell_at_node (g.node_at_link_head e) = -1
  · rw [if_neg (fun hin => (hmem.mp hin) hc), if_pos hc]
  · rw [if_pos (hmem.mpr hc), if_neg hc]

/-- Comparing band-decomposed link ids: the row index is monotone, with
the in-band offset breaking ties. -/
theorem band_le (g : RasterGrid) {r k r' k' : Nat} (hk : k < g.band)
    (hk' : k' < g.band) (h : r * g.band + k < r' * g.band + k') :
    r ≤ r' ∧ (r = r' → k < k') := by
  constructor
  · by_contra hcon
    have h1 : (r' + 1) * g.band ≤ r * g.band :=
      Nat.mul_le_mul_right _ (by omega)
    rw [Nat.succ_mul] at h1
    omega
  · intro he
    subst he
    omega

/-- The midpoint of a horizontal link sits half a spacing east of its tail
node. -/
theorem link_mid_horiz (g : RasterGrid) {c : Nat} (r : Nat) (hc : c < g.cols - 1) :
    g.x_of_link (g.horizId r c) = ((c : Rat) + 1/2) * g.dx ∧
      g.y_of_link (g.horizId r c) = (r : Rat) * g.dy := by
  obtain ⟨-, ht, hhd⟩ := g.horizId_decode r hc
  have h1 := g.node_div_mod (r := r) (show c < g.cols by omega)
  have h2 := g.node_div_mod (r := r) (show c + 1 < g.cols by omega)
  have hassoc : r * g.cols + c + 1 = r * g.cols + (c + 1) := Nat.add_assoc _ _ _
  unfold x_of_link y_of_link x_of_node y_of_node
  rw [ht, hhd, hassoc, h1.1, h1.2, h2.1, h2.2]
  constructor
  · push_cast
    ring
  · push_cast
    ring

/-- The midpoint of a vertical link sits half a spacing north of its tail
node. -/
theorem link_mid_vert (g : RasterGrid) {c : Nat} (r : Nat) (hc : c < g.cols) :
    g.x_of_link (g.vertId r c) = (c : Rat) * g.dx ∧
      g.y_of_link (g.vertId r c) = ((r : Rat) + 1/2) * g.dy := by
  obtain ⟨-, ht, hhd⟩ := g.vertId_decode r hc (by omega)
  have h1 := g.node_div_mod (r := r) hc
  have h2 := g.node_div_mod (r := r + 1) hc
  unfold x_of_link y_of_link x_of_node y_of_node
  rw [ht, hhd, h1.1, h1.2, h2.1, h2.2]
  constructor
  · push_cast
    ring
  · push_cast
    ring

/-- Link ids ascend in (y, then x) of the link midpoints: within a band
the horizontal links of a node row come first (same y, ascending x),
followed by the verticals half a spacing higher, and the next band starts
a full spacing up. -/
theorem link_mid_lex (g : RasterGrid) (hdx : 0 < g.dx) (hdy : 0 < g.dy)
    (e f : Nat) (he : e < g.number_of_links) (hf : f < g.number_of_links)
    (hef : e < f) :
    g.y_of_link e < g.y_of_link f ∨
      (g.y_of_link e = g.y_of_link f ∧ g.x_of_link e < g.x_of_link f) := by
  have hband : g.band = 2 * g.cols - 1 := rfl
  rcases g.link_decode e he with ⟨r, c, hr, hc, rfl⟩ | ⟨r, c, hr, hc, rfl⟩ <;>
    rcases g.link_decode f hf with ⟨r', c', hr', hc', rfl⟩ | ⟨r', c', hr', hc', rfl⟩
  · obtain ⟨hm1x, hm1y⟩ := g.link_mid_horiz r hc
    obtain ⟨hm2x, hm2y⟩ := g.link_mid_horiz r' hc'
    have hef' : r * g.band + c < r' * g.band + c' := by
      unfold RasterGrid.horizId at hef
      exact hef
    obtain ⟨hrle, htie⟩ := g.band_le (by omega) (by omega) hef'
    rcases Nat.lt_or_ge r r' with hlt | hge
    · left
      rw [hm1y, hm2y]
      refine mul_lt_mul_of_pos_right ?_ hdy
      exact_mod_cast hlt
    · have heq : r = r' := by omega
      subst heq
      have hcc : c < c' := htie rfl
      right
      refine ⟨by rw [hm1y, hm2y], ?_⟩
      rw [hm1x, hm2x]
      refine mul_lt_mul_of_pos_right ?_ hdx
      have hq : (c : Rat) < (c' : Rat) := by exact_mod_cast hcc
      linarith
  · obtain ⟨hm1x, hm1y⟩ := g.link_mid_horiz r hc
    obtain ⟨hm2x, hm2y⟩ := g.link_mid_vert r' hc'
    have hef' : r * g.band + c < r' * g.band + (g.cols - 1 + c') := by
      unfold RasterGrid.horizId RasterGrid.vertId at hef
      omega
    obtain ⟨hrle, -⟩ := g.band_le (by omega) (by omega) hef'
    left
    rw [hm1y, hm2y]
    refine mul_lt_mul_of_pos_right ?_ hdy
    have hq : (r : Rat) ≤ (r' : Rat) := by exact_mod_cast hrle
    linarith
  · obtain ⟨hm1x, hm1y⟩ := g.link_mid_vert r hc
    obtain ⟨hm2x, hm2y⟩ := g.link_mid_horiz r' hc'
    have hef' : r * g.band + (g.cols - 1 + c) < r' * g.band + c' := by
      unfold RasterGrid.horizId RasterGrid.vertId at hef
      omega
    obtain ⟨hrle, htie⟩ := g.band_le (by omega) (by omega) hef'
    have hrlt : r < r' := by
      rcases Nat.lt_or_ge r r' with h | h
      · exact h
      · have heq : r = r' := by omega
        have := htie heq
        omega
    left
    rw [hm1y, hm2y]
    refine mul_lt_mul_of_pos_right ?_ hdy
    have hq : (r : Rat) + 1 ≤ (r' : Rat) := by exact_mod_cast hrlt
    linarith
  · obtain ⟨hm1x, hm1y⟩ := g.link_mid_vert r hc
    obtain ⟨hm2x, hm2y⟩ := g.link_mid_vert r' hc'
    have hef' : r * g.band + (g.cols - 1 + c) <
        r' * g.band + (g.cols - 1 + c') := by
      unfold RasterGrid.vertId at hef
      omega
    obtain ⟨hrle, htie⟩ := g.band_le (by omega) (by omega) hef'
    rcases Nat.lt_or_ge r r' with hlt | hge
    · left
      rw [hm1y, hm2y]
      refine mul_lt_mul_of_pos_right ?_ hdy
      have hq : (r : Rat) + 1 ≤ (r' : Rat) := by exact_mod_cast hlt
      linarith
    · have heq : r = r' := by omega
      subst heq
      have hcc : c < c' := by
        have := htie rfl
        omega
      right
      refine ⟨by rw [hm1y, hm2y], ?_⟩
      rw [hm1x, hm2x]
      refine mul_lt_mul_of_pos_right ?_ hdx
      exact_mod_cast hcc


/-- Discrete divergence theorem for the raster: the area-weighted
divergences summed over all cells equal the net outflow across the
boundary of the cell-bearing region. -/
theorem sum_div_area_eq_gw_out (g : RasterGrid) (q : Nat → Rat)
    (hA : g.cell_area ≠ 0) :
    ∑ n ∈ g.cellNodes, g.flux_div_at_node q n * g.cell_area = g.gw_out q := by
  have h1 : ∀ n ∈ g.cellNodes,
      g.flux_div_at_node q n * g.cell_area =
        g.outflow_sum q n - g.inflow_sum q n := by
    intro n hn
    obtain ⟨hnr, hcell⟩ := Finset.mem_filter.mp hn
    rw [(g.flux_div_at_node_cases q n (Finset.mem_range.mp hnr)).2 hcell]
    field_simp
  rw [Finset.sum_congr rfl h1, Finset.sum_sub_distrib,
    g.sum_outflow_eq q, g.sum_inflow_eq q]
  unfold gw_out
  rw [Finset.sum_sub_distrib]

end RasterGrid



/-- Ids of a row-major lattice of width `w`, placed at
`((id mod w) + ox) * dx` east and `((id div w) + oy) * dy` north, ascend
in (y, then x). -/
theorem grid_lex (w : Nat) (dx dy ox oy : Rat) (hdx : 0 < dx) (hdy : 0 < dy)
    (i j : Nat) (hij : i < j) :
    (((i / w : Nat) : Rat) + oy) * dy < (((j / w : Nat) : Rat) + oy) * dy ∨
      ((((i / w : Nat) : Rat) + oy) * dy = (((j / w : Nat) : Rat) + oy) * dy ∧
        (((i % w : Nat) : Rat) + ox) * dx < (((j % w : Nat) : Rat) + ox) * dx) := by
  rcases Nat.lt_or_ge (i / w) (j / w) with hlt | hge
  · left
    refine mul_lt_mul_of_pos_right ?_ hdy
    have hq : ((i / w : Nat) : Rat) < ((j / w : Nat) : Rat) := by
      exact_mod_cast hlt
    linarith
  · have heq : i / w = j / w := by
      have := Nat.div_le_div_right (c := w) (Nat.le_of_lt hij)
      omega
    right
    refine ⟨by rw [heq], ?_⟩
    have hmlt : i % w < j % w := by
      have hi := Nat.div_add_mod i w
      have hj := Nat.div_add_mod j w
      rw [← heq] at hj
      omega
    refine mul_lt_mul_of_pos_right ?_ hdx
    have hq : ((i % w : Nat) : Rat) < ((j % w : Nat) : Rat) := by
      exact_mod_cast hmlt
    linarith


namespace GWModel

/-- One fixed substep preserves the mass-balance defect exactly: the
recharge volume added equals the groundwater and surface outflow volumes
added plus the storage change. -/
theorem stepFixed_balance (m : GWModel) (dt : Rat) (s : GWState)
    (hpor : m.porosity ≠ 0) (hA : m.g.cell_area ≠ 0) :
    (m.stepFixed dt s).cumRecharge - (m.stepFixed dt s).cumGw -
        (m.stepFixed dt s).cumSw -
        m.calc_total_storage (m.stepFixed dt s).wt =
      s.cumRecharge - s.cumGw - s.cumSw - m.calc_total_storage s.wt := by
  have hwt' : ∀ n ∈ m.g.cellNodes,
      (m.stepFixed dt s).wt n = m.rawNew dt s n - m.overflow dt s n := by
    intro n hn
    obtain ⟨-, hcell⟩ := Finset.mem_filter.mp hn
    show (if m.g.cell_at_node n = -1 then _ else _) = _
    rw [if_neg hcell]
    unfold overflow
    by_cases hcap : m.elev n < m.rawNew dt s n
    · rw [if_pos hcap, if_pos hcap]
      ring
    · rw [if_neg hcap, if_neg hcap]
      ring
  have hterm : ∀ n ∈ m.g.cellNodes,
      (m.rawNew dt s n - m.overflow dt s n) * m.porosity * m.g.cell_area =
        s.wt n * m.porosity * m.g.cell_area +
          dt * (m.recharge * m.g.cell_area) -
          dt * (m.g.flux_div_at_node (m.gw_flux s.wt) n * m.g.cell_area) -
          m.overflow dt s n * m.porosity * m.g.cell_area := by
    intro n hn
    unfold rawNew
    field_simp
    ring
  have hstor : m.calc_total_storage (m.stepFixed dt s).wt =
      m.calc_total_storage s.wt + dt * m.calc_recharge_flux_in -
        dt * m.g.gw_out (m.gw_flux s.wt) -
        ∑ n ∈ m.g.cellNodes, m.overflow dt s n * m.porosity * m.g.cell_area := by
    unfold calc_total_storage
    rw [Finset.sum_congr rfl (fun n hn => by rw [hwt' n hn])]
    rw [Finset.sum_congr rfl hterm]
    rw [Finset.sum_sub_distrib, Finset.sum_sub_distrib, Finset.sum_add_distrib]
    have hdiv : ∑ x ∈ m.g.cellNodes,
        dt * (m.g.flux_div_at_node (m.gw_flux s.wt) x * m.g.cell_area) =
          dt * m.g.gw_out (m.gw_flux s.wt) := by
      rw [← Finset.mul_sum, m.g.sum_div_area_eq_gw_out _ hA]
    have hrech : ∑ _x ∈ m.g.cellNodes, dt * (m.recharge * m.g.cell_area) =
        dt * m.calc_recharge_flux_in := by
      unfold calc_recharge_flux_in
      rw [← Finset.mul_sum]
    rw [hdiv, hrech]
  show s.cumRecharge + dt * m.calc_recharge_flux_in -
      (s.cumGw + dt * m.g.gw_out (m.gw_flux s.wt)) -
      (s.cumSw + ∑ n ∈ m.g.cellNodes,
        m.overflow dt s n * m.porosity * m.g.cell_area) -
      m.calc_total_storage (m.stepFixed dt s).wt = _
  rw [hstor]
  ring

/-- The mass-balance defect is invariant across a whole adaptive run. -/
theorem stepAdaptive_invariant (m : GWModel) (courant : Rat)
    (hpor : m.porosity ≠ 0) (hA : m.g.cell_area ≠ 0) :
    ∀ (fuel : Nat) (remaining : Rat) (s : GWState),
      (m.stepAdaptive courant fuel remaining s).cumRecharge -
          (m.stepAdaptive courant fuel remaining s).cumGw -
          (m.stepAdaptive courant fuel remaining s).cumSw -
          m.calc_total_storage (m.stepAdaptive courant fuel remaining s).wt =
        s.cumRecharge - s.cumGw - s.cumSw - m.calc_total_storage s.wt := by
  intro fuel
  induction fuel with
  | zero =>
    intro remaining s
    rfl
  | succ f ih =>
    intro remaining s
    show (if remaining ≤ 0 then s else _).cumRecharge - _ - _ - _ = _
    by_cases h : remaining ≤ 0
    · simp only [stepAdaptive, if_pos h]
    · simp only [stepAdaptive, if_neg h]
      rw [ih]
      exact m.stepFixed_balance _ s hpor hA

end GWModel

namespace RasterGridChecks

/-- The modelled coordinates reproduce the node listing printed in the grid
demo notebook (row-major from the bottom-left origin). -/
theorem smg_coords :
    (List.range 12).map (fun n => (smg.x_of_node n, smg.y_of_node n)) =
      [(0,0), (1,0), (2,0), (3,0),
       (0,1), (1,1), (2,1), (3,1),
       (0,2), (1,2), (2,2), (3,2)] := by
  have h : List.range 12 = [0, 1, 2, 3, 4, 5, 6, 7, 8, 9, 10, 11] := by decide
  rw [h]
  norm_num [RasterGrid.x_of_node, RasterGrid.y_of_node, RasterGrid.node_col,
    RasterGrid.node_row, smg]

/-- The modelled link table reproduces the tail/head listing printed in the
grid demo notebook. -/
theorem smg_links :
    (List.range 17).map
        (fun e => (smg.node_at_link_tail e, smg.node_at_link_head e)) =
      [(0,1), (1,2), (2,3),
       (0,4), (1,5), (2,6), (3,7),
       (4,5), (5,6), (6,7),
       (4,8), (5,9), (6,10), (7,11),
       (8,9), (9,10), (10,11)] := by decide

/-- The modelled status lists reproduce `core_nodes` and `active_links` as
printed for the fresh 3 x 4 demo grid. -/
theorem smg_core_and_active :
    smg.core_nodes = [5, 6] ∧ smg.active_links = [4, 5, 7, 8, 9, 11, 12] := by
  decide

/-- The modelled `cell_at_node` reproduces the printed array
`[-1, -1, -1, -1, -1, 0, 1, -1, -1, -1, -1, -1]`. -/
theorem smg_cell_at_node :
    (List.range 12).map smg.cell_at_node =
      [-1, -1, -1, -1, -1, 0, 1, -1, -1, -1, -1, -1] := by decide

/-- The modelled gradient reproduces the printed 17-entry sequence on the
spacing-10 grid. -/
theorem mg10_grad_eval : mg10.calc_grad_at_link zScenario = gradPrinted := by
  have h : List.range mg10.number_of_links =
      [0, 1, 2, 3, 4, 5, 6, 7, 8, 9, 10, 11, 12, 13, 14, 15, 16] := by decide
  rw [RasterGrid.calc_grad_at_link, h]
  norm_num [RasterGrid.grad_at_link, RasterGrid.node_at_link_head,
    RasterGrid.node_at_link_tail, RasterGrid.length_of_link,
    RasterGrid.is_horizontal, RasterGrid.band, mg10, zScenario, gradPrinted]

/-- The modelled divergence reproduces the printed array on the spacing-10
grid and the scenario flux. -/
theorem mg10_div_eval : mg10.calc_flux_div_at_node qScenario = divPrinted := by
  have h : List.range mg10.number_of_nodes =
      [0, 1, 2, 3, 4, 5, 6, 7, 8, 9, 10, 11] := by decide
  rw [RasterGrid.calc_flux_div_at_node, h]
  norm_num [Int.toNat, RasterGrid.flux_div_at_node,
    RasterGrid.flux_into_node_sum,
    Finset.sum_range_succ, RasterGrid.links_at_node, RasterGrid.link_dirs_at_node,
    RasterGrid.cell_at_node, RasterGrid.cell_area, RasterGrid.node_row,
    RasterGrid.node_col, RasterGrid.horizId, RasterGrid.vertId,
    RasterGrid.width_of_face_at_link, RasterGrid.is_horizontal, RasterGrid.band,
    qScenario, RasterGrid.grad_at_link, RasterGrid.node_at_link_head,
    RasterGrid.node_at_link_tail, RasterGrid.length_of_link, mg10, zScenario,
    divPrinted]

/-- The face-crossed links of the demo grid are exactly the seven links
with a cell-bearing endpoint, in ascending order, matching the face count
and the face sketch of the grid demo notebook. -/
theorem smg_face_links :
    smg.face_links = [4, 5, 7, 8, 9, 11, 12] ∧
      smg.face_links.length = smg.number_of_faces := by decide

end RasterGridChecks

/-! ## Claim theorems -/

/-- Claim C1: `calc_grad_at_link` assigns to every Edge `e` with tail `t`
and head `h` the value `(f[h] - f[t]) / length(e)`; it is defined for every
Edge of the mesh (the result array has one entry per link), and is
independent of the boundary statuses of the nodes. -/
theorem C1_gradient_at_edge (g : RasterGrid) (z : Nat → Rat) (e : Nat)
    (he : e < g.number_of_links) :
    (g.calc_grad_at_link z).length = g.number_of_links ∧
      (g.calc_grad_at_link z).getD e 0 =
        (z (g.node_at_link_head e) - z (g.node_at_link_tail e)) /
          g.length_of_link e ∧
      ∀ f : Nat → NodeStatus,
        (g.set_status f).calc_grad_at_link z = g.calc_grad_at_link z := by
  refine ⟨by simp [RasterGrid.calc_grad_at_link], ?_, fun f => rfl⟩
  unfold RasterGrid.calc_grad_at_link
  rw [List.getD_eq_getElem?_getD, List.getElem?_map, List.getElem?_range he]
  rfl

/-- Witness for C1 on the 3 x 4 spacing-10 grid at link 4. -/
theorem C1_gradient_at_edge_witness :
    4 < mg10.number_of_links ∧
      (mg10.calc_grad_at_link zScenario).getD 4 0 =
        (zScenario (mg10.node_at_link_head 4) -
          zScenario (mg10.node_at_link_tail 4)) / mg10.length_of_link 4 :=
  ⟨by decide, (C1_gradient_at_edge mg10 zScenario 4 (by decide)).2.1⟩

/-- Claim C3 counterexample: on the fresh 3 x 4 demo grid, link 0 joins two
FIXED_VALUE nodes yet is absent from the recorded ACTIVE list (so it is not
ACTIVE), refuting the claim that an edge with both endpoints FIXED_VALUE is
ACTIVE. -/
theorem C3_counterexample :
    smg.status_at_node (smg.node_at_link_tail 0) = NodeStatus.fixedValue ∧
      smg.status_at_node (smg.node_at_link_head 0) = NodeStatus.fixedValue ∧
      smg.active_links = [4, 5, 7, 8, 9, 11, 12] ∧
      0 ∉ smg.active_links ∧
      smg.status_at_link 0 ≠ LinkStatus.active := by decide

/-- Claim C3 (amended): edge status is the total deterministic function of
the endpoint statuses given by: INACTIVE if either endpoint is CLOSED or
neither endpoint is CORE (in particular both-FIXED_VALUE edges are
INACTIVE); FIXED if one endpoint is CORE and the other FIXED_GRADIENT;
ACTIVE otherwise — for all 16 combinations of the four node statuses. -/
theorem C3_edge_status :
    (∀ s t : NodeStatus, RasterGrid.linkStatusOf s t = edgeStatusAmended s t) ∧
      ∀ (g : RasterGrid) (e : Nat),
        g.status_at_link e =
          edgeStatusAmended (g.status_at_node (g.node_at_link_tail e))
            (g.status_at_node (g.node_at_link_head e)) := by
  have key : ∀ s t : NodeStatus, RasterGrid.linkStatusOf s t = edgeStatusAmended s t := by
    intro s t
    cases s <;> cases t <;> rfl
  exact ⟨key, fun g e => key _ _⟩

/-- Claim C6: immediately after a bulk mutation closing a set of nodes,
the derived active-edge list already reflects it: every edge incident to a
newly CLOSED node is absent from the ACTIVE list on the very next read,
with no other call; concretely, closing the bottom row of the demo grid
leaves exactly the recorded list `[7, 8, 9, 11, 12]`. -/
theorem C6_status_auto_update :
    (∀ (g : RasterGrid) (S : List Nat) (e : Nat),
      g.node_at_link_tail e ∈ S ∨ g.node_at_link_head e ∈ S →
        e ∉ (g.close_nodes S).active_links) ∧
      (smg.close_nodes [0, 1, 2, 3]).active_links = [7, 8, 9, 11, 12] := by
  have hleft : ∀ t : NodeStatus,
      RasterGrid.linkStatusOf NodeStatus.closed t = LinkStatus.inactive := by
    intro t; cases t <;> rfl
  have hright : ∀ s : NodeStatus,
      RasterGrid.linkStatusOf s NodeStatus.closed = LinkStatus.inactive := by
    intro s; cases s <;> rfl
  constructor
  · intro g S e hmem hin
    have hact : (g.close_nodes S).status_at_link e = LinkStatus.active :=
      of_decide_eq_true (List.mem_filter.mp hin).2
    have hstat : ∀ n, n ∈ S →
        (g.close_nodes S).status_at_node n = NodeStatus.closed := by
      intro n hn
      show (if n ∈ S then _ else _) = _
      rw [if_pos hn]
    have hst : (g.close_nodes S).status_at_link e = LinkStatus.inactive := by
      have htl : (g.close_nodes S).node_at_link_tail e =
        g.node_at_link_tail e := rfl
      have hhd : (g.close_nodes S).node_at_link_head e =
        g.node_at_link_head e := rfl
      unfold RasterGrid.status_at_link
      rw [htl, hhd]
      rcases hmem with h | h
      · rw [hstat _ h, hleft]
      · rw [hstat _ h, hright]
    rw [hact] at hst
    exact LinkStatus.noConfusion hst
  · decide

/-- Witness for C6: link 3 of the demo grid is incident to bottom-row node
0 and indeed missing from the active list after the closure. -/
theorem C6_status_auto_update_witness :
    (smg.node_at_link_tail 3 ∈ [0, 1, 2, 3] ∨
      smg.node_at_link_head 3 ∈ [0, 1, 2, 3]) ∧
      3 ∉ (smg.close_nodes [0, 1, 2, 3]).active_links :=
  ⟨by decide, C6_status_auto_update.1 smg [0, 1, 2, 3] 3 (by decide)⟩

/-- Claim C10: after any node-status assignment, every edge in the ACTIVE
list has at least one CORE endpoint, and an edge with no CORE endpoint
(both endpoints boundary nodes of any flavour) never appears in it. -/
theorem C10_active_requires_core :
    (∀ (g : RasterGrid) (e : Nat), e ∈ g.active_links →
      g.status_at_node (g.node_at_link_tail e) = NodeStatus.core ∨
        g.status_at_node (g.node_at_link_head e) = NodeStatus.core) ∧
      ∀ (g : RasterGrid) (e : Nat),
        g.status_at_node (g.node_at_link_tail e) ≠ NodeStatus.core →
        g.status_at_node (g.node_at_link_head e) ≠ NodeStatus.core →
        e ∉ g.active_links := by
  have key : ∀ s t : NodeStatus, RasterGrid.linkStatusOf s t = LinkStatus.active →
      s = NodeStatus.core ∨ t = NodeStatus.core := by
    intro s t h
    cases s <;> cases t <;>
      first
        | exact Or.inl rfl
        | exact Or.inr rfl
        | exact absurd h (by decide)
  constructor
  · intro g e he
    have hp : g.status_at_link e = LinkStatus.active :=
      of_decide_eq_true (List.mem_filter.mp he).2
    unfold RasterGrid.status_at_link at hp
    exact key _ _ hp
  · intro g e h1 h2 he
    have hp : g.status_at_link e = LinkStatus.active :=
      of_decide_eq_true (List.mem_filter.mp he).2
    unfold RasterGrid.status_at_link at hp
    rcases key _ _ hp with h | h
    · exact h1 h
    · exact h2 h

/-- Witness for C10 at active link 4 of the demo grid. -/
theorem C10_active_requires_core_witness :
    4 ∈ smg.active_links ∧
      (smg.status_at_node (smg.node_at_link_tail 4) = NodeStatus.core ∨
        smg.status_at_node (smg.node_at_link_head 4) = NodeStatus.core) :=
  ⟨by decide, C10_active_requires_core.1 smg 4 (by decide)⟩

/-- Claim C7 counterexample: the degenerate (but, per the spec's input
validation, constructible) 1 x 1 lattice has zero links and zero faces, so
the strict dominance `|Edge| > |DualFace|` fails. -/
theorem C7_counterexample :
    grid1x1.number_of_links = 0 ∧ grid1x1.number_of_faces = 0 ∧
      ¬(grid1x1.number_of_faces < grid1x1.number_of_links) := by decide

/-- Claim C7 (amended): on every lattice with at least 2 rows and 2
columns the primal counts strictly dominate their duals
(`|Node| > |DualCorner|`, `|Edge| > |DualFace|`,
`|Polygon| > |DualCell|`); and on every lattice, with no size restriction,
a node possesses a DualCell exactly when it is not on the mesh
perimeter. -/
theorem C7_primal_dominance :
    (∀ (g : RasterGrid), 2 ≤ g.rows → 2 ≤ g.cols →
      g.number_of_corners < g.number_of_nodes ∧
        g.number_of_faces < g.number_of_links ∧
        g.number_of_cells < g.number_of_patches) ∧
      ∀ (g : RasterGrid) (n : Nat), n < g.number_of_nodes →
        (g.cell_at_node n = -1 ↔ g.is_perimeter n = true) := by
  constructor
  · intro g hr hc
    obtain ⟨a, ha⟩ : ∃ a, g.rows = a + 2 := ⟨g.rows - 2, by omega⟩
    obtain ⟨b, hb⟩ : ∃ b, g.cols = b + 2 := ⟨g.cols - 2, by omega⟩
    have e1 : g.rows - 1 = a + 1 := by omega
    have e2 : g.cols - 1 = b + 1 := by omega
    have e3 : g.rows - 2 = a := by omega
    have e4 : g.cols - 2 = b := by omega
    refine ⟨?_, ?_, ?_⟩
    · unfold RasterGrid.number_of_corners RasterGrid.number_of_nodes
      rw [e1, e2, ha, hb]
      ring_nf
      omega
    · unfold RasterGrid.number_of_faces RasterGrid.number_of_links
      rw [e1, e2, e3, e4, ha, hb]
      ring_nf
      omega
    · unfold RasterGrid.number_of_cells RasterGrid.number_of_patches
      rw [e1, e2, e3, e4]
      ring_nf
      omega
  · intro g n hn
    obtain ⟨hd, hrn, hcn⟩ := g.node_decomp n hn
    have hperim : (g.is_perimeter n = true) ↔
        (g.node_row n = 0 ∨ g.node_row n = g.rows - 1 ∨
          g.node_col n = 0 ∨ g.node_col n = g.cols - 1) := by
      unfold RasterGrid.is_perimeter
      simp
      tauto
    rw [hperim]
    unfold RasterGrid.cell_at_node
    by_cases hg : 0 < g.node_row n ∧ g.node_row n + 1 < g.rows ∧
        0 < g.node_col n ∧ g.node_col n + 1 < g.cols
    · rw [if_pos hg]
      constructor
      · intro hcon
        exfalso
        omega
      · intro hdisj
        exfalso
        omega
    · rw [if_neg hg]
      constructor
      · intro _
        omega
      · intro _
        rfl

/-- Witness for C7: counts on the 3 x 4 demo grid, and the equivalence at
a perimeter node and a cell node. -/
theorem C7_primal_dominance_witness :
    (2 ≤ smg.rows ∧ 2 ≤ smg.cols ∧
      (smg.number_of_corners < smg.number_of_nodes ∧
        smg.number_of_faces < smg.number_of_links ∧
        smg.number_of_cells < smg.number_of_patches)) ∧
      (0 < smg.number_of_nodes ∧
        (smg.cell_at_node 0 = -1 ↔ smg.is_perimeter 0 = true)) ∧
      (5 < smg.number_of_nodes ∧
        (smg.cell_at_node 5 = -1 ↔ smg.is_perimeter 5 = true)) :=
  ⟨⟨by decide, by decide, C7_primal_dominance.1 smg (by decide) (by decide)⟩,
    ⟨by decide, C7_primal_dominance.2 smg 0 (by decide)⟩,
    ⟨by decide, C7_primal_dominance.2 smg 5 (by decide)⟩⟩

/-- Claim C8 counterexample: on the 3 x 4 unit demo grid, node 1 sits at
(1, 0) and node 4 at (0, 1); id 1 precedes id 4 although (0, 1) precedes
(1, 0) in the claimed x-major lexicographic order, so the numbering is not
ascending in (x, then y). -/
theorem C8_counterexample :
    (1 : Nat) < 4 ∧ smg.x_of_node 1 = 1 ∧ smg.y_of_node 1 = 0 ∧
      smg.x_of_node 4 = 0 ∧ smg.y_of_node 4 = 1 ∧
      ¬(smg.x_of_node 1 < smg.x_of_node 4 ∨
        (smg.x_of_node 1 = smg.x_of_node 4 ∧
          smg.y_of_node 1 ≤ smg.y_of_node 4)) := by
  norm_num [RasterGrid.x_of_node, RasterGrid.y_of_node, RasterGrid.node_row,
    RasterGrid.node_col, smg]

/-- Claim C8 (amended): the elements of every kind are numbered in
ascending order of their defining coordinates with y as the primary sort
key and x as the tie-break — nodes by their location, links and faces by
the link midpoints, cells by their node, corners and patches by the patch
centres — and every coordinate, hence the ordering, is unchanged by any
status mutation (the only mutation the model admits short of
re-triangulation). -/
theorem C8_node_ordering :
    (∀ (g : RasterGrid), 0 < g.dx → 0 < g.dy → ∀ i j,
      i < g.number_of_nodes → j < g.number_of_nodes → i < j →
        g.y_of_node i < g.y_of_node j ∨
          (g.y_of_node i = g.y_of_node j ∧ g.x_of_node i < g.x_of_node j)) ∧
      (∀ (g : RasterGrid), 0 < g.dx → 0 < g.dy → ∀ e f,
        e < g.number_of_links → f < g.number_of_links → e < f →
          g.y_of_link e < g.y_of_link f ∨
            (g.y_of_link e = g.y_of_link f ∧ g.x_of_link e < g.x_of_link f)) ∧
      (∀ (g : RasterGrid), 0 < g.dx → 0 < g.dy → ∀ i j
        (hi : i < g.face_links.length) (hj : j < g.face_links.length),
        i < j →
          g.y_of_link (g.face_links.get ⟨i, hi⟩) <
              g.y_of_link (g.face_links.get ⟨j, hj⟩) ∨
            (g.y_of_link (g.face_links.get ⟨i, hi⟩) =
                g.y_of_link (g.face_links.get ⟨j, hj⟩) ∧
              g.x_of_link (g.face_links.get ⟨i, hi⟩) <
                g.x_of_link (g.face_links.get ⟨j, hj⟩))) ∧
      (∀ (g : RasterGrid), 0 < g.dx → 0 < g.dy → ∀ i j,
        i < g.number_of_cells → j < g.number_of_cells → i < j →
          g.y_of_cell i < g.y_of_cell j ∨
            (g.y_of_cell i = g.y_of_cell j ∧ g.x_of_cell i < g.x_of_cell j)) ∧
      (∀ (g : RasterGrid), 0 < g.dx → 0 < g.dy → ∀ i j,
        i < g.number_of_corners → j < g.number_of_corners → i < j →
          g.y_of_corner i < g.y_of_corner j ∨
            (g.y_of_corner i = g.y_of_corner j ∧
              g.x_of_corner i < g.x_of_corner j)) ∧
      (∀ (g : RasterGrid), 0 < g.dx → 0 < g.dy → ∀ i j,
        i < g.number_of_patches → j < g.number_of_patches → i < j →
          g.y_of_patch i < g.y_of_patch j ∨
            (g.y_of_patch i = g.y_of_patch j ∧
              g.x_of_patch i < g.x_of_patch j)) ∧
      ∀ (g : RasterGrid) (f : Nat → NodeStatus) (n : Nat),
        (g.set_status f).x_of_node n = g.x_of_node n ∧
          (g.set_status f).y_of_node n = g.y_of_node n ∧
          (g.set_status f).x_of_link n = g.x_of_link n ∧
          (g.set_status f).y_of_link n = g.y_of_link n ∧
          (g.set_status f).x_of_cell n = g.x_of_cell n ∧
          (g.set_status f).y_of_cell n = g.y_of_cell n ∧
          (g.set_status f).x_of_corner n = g.x_of_corner n ∧
          (g.set_status f).y_of_corner n = g.y_of_corner n ∧
          (g.set_status f).x_of_patch n = g.x_of_patch n ∧
          (g.set_status f).y_of_patch n = g.y_of_patch n ∧
          (g.set_status f).face_links = g.face_links := by
  refine ⟨?_, ?_, ?_, ?_, ?_, ?_, ?_⟩
  · intro g hdx hdy i j hi hj hij
    obtain ⟨hdi, hri, hci⟩ := g.node_decomp i hi
    obtain ⟨hdj, hrj, hcj⟩ := g.node_decomp j hj
    have hrle : g.node_row i ≤ g.node_row j :=
      Nat.div_le_div_right (Nat.le_of_lt hij)
    rcases Nat.lt_or_ge (g.node_row i) (g.node_row j) with hlt | hge
    · left
      unfold RasterGrid.y_of_node
      exact mul_lt_mul_of_pos_right (by exact_mod_cast hlt) hdy
    · have heq : g.node_row i = g.node_row j := by omega
      right
      constructor
      · unfold RasterGrid.y_of_node
        rw [heq]
      · have hclt : g.node_col i < g.node_col j := by
          rw [← heq] at hdj
          omega
        unfold RasterGrid.x_of_node
        exact mul_lt_mul_of_pos_right (by exact_mod_cast hclt) hdx
  · intro g hdx hdy e f he hf hef
    exact g.link_mid_lex hdx hdy e f he hf hef
  · intro g hdx hdy i j hi hj hij
    have hpw : List.Pairwise (· < ·) g.face_links := by
      unfold RasterGrid.face_links
      exact (List.pairwise_lt_range _).filter _
    have hlt : g.face_links.get ⟨i, hi⟩ < g.face_links.get ⟨j, hj⟩ :=
      List.pairwise_iff_get.mp hpw ⟨i, hi⟩ ⟨j, hj⟩ (Fin.mk_lt_mk.mpr hij)
    have hbound : ∀ (k : Nat) (hk : k < g.face_links.length),
        g.face_links.get ⟨k, hk⟩ < g.number_of_links := by
      intro k hk
      have hm : g.face_links.get ⟨k, hk⟩ ∈ g.face_links :=
        List.get_mem _ _ _
      unfold RasterGrid.face_links at hm
      exact List.mem_range.mp (List.mem_filter.mp hm).1
    exact g.link_mid_lex hdx hdy _ _ (hbound i hi) (hbound j hj) hlt
  · intro g hdx hdy i j hi hj hij
    unfold RasterGrid.y_of_cell RasterGrid.x_of_cell
    exact grid_lex (g.cols - 2) g.dx g.dy 1 1 hdx hdy i j hij
  · intro g hdx hdy i j hi hj hij
    unfold RasterGrid.y_of_corner RasterGrid.x_of_corner
    exact grid_lex (g.cols - 1) g.dx g.dy (1/2) (1/2) hdx hdy i j hij
  · intro g hdx hdy i j hi hj hij
    unfold RasterGrid.y_of_patch RasterGrid.x_of_patch
    exact grid_lex (g.cols - 1) g.dx g.dy (1/2) (1/2) hdx hdy i j hij
  · intro g f n
    exact ⟨rfl, rfl, rfl, rfl, rfl, rfl, rfl, rfl, rfl, rfl, rfl⟩

/-- Witness for C8 on the demo grid: consecutive nodes, links and cells. -/
theorem C8_node_ordering_witness :
    ((0 : Rat) < smg.dx ∧ (0 : Rat) < smg.dy ∧ 0 < smg.number_of_nodes ∧
      1 < smg.number_of_nodes ∧ (0 : Nat) < 1 ∧
      (smg.y_of_node 0 < smg.y_of_node 1 ∨
        (smg.y_of_node 0 = smg.y_of_node 1 ∧
          smg.x_of_node 0 < smg.x_of_node 1))) ∧
      (0 < smg.number_of_links ∧ 1 < smg.number_of_links ∧
        (smg.y_of_link 0 < smg.y_of_link 1 ∨
          (smg.y_of_link 0 = smg.y_of_link 1 ∧
            smg.x_of_link 0 < smg.x_of_link 1))) ∧
      (0 < smg.number_of_cells ∧ 1 < smg.number_of_cells ∧
        (smg.y_of_cell 0 < smg.y_of_cell 1 ∨
          (smg.y_of_cell 0 = smg.y_of_cell 1 ∧
            smg.x_of_cell 0 < smg.x_of_cell 1))) :=
  ⟨⟨by norm_num [smg], by norm_num [smg], by decide, by decide, by decide,
      C8_node_ordering.1 smg (by norm_num [smg]) (by norm_num [smg]) 0 1
        (by decide) (by decide) (by decide)⟩,
    ⟨by decide, by decide,
      C8_node_ordering.2.1 smg (by norm_num [smg]) (by norm_num [smg]) 0 1
        (by decide) (by decide) (by decide)⟩,
    ⟨by decide, by decide,
      C8_node_ordering.2.2.2.1 smg (by norm_num [smg]) (by norm_num [smg]) 0 1
        (by decide) (by decide) (by decide)⟩⟩

/-- Claim C9: in the fixed-width adjacency tables, a links-at-node slot
holds the sentinel `-1` exactly when the corresponding direction slot holds
0 (the notebook verifies this as
`np.all((link_dirs_at_node == 0) == (links_at_node == -1))`); the modelled
tables also reproduce the arrays printed for the 3 x 4 demo grid. -/
theorem C9_sentinel_consistency :
    (∀ (g : RasterGrid) (n s : Nat),
      g.links_at_node n s = -1 ↔ g.link_dirs_at_node n s = 0) ∧
      (List.range 12).map
          (fun n => (List.range 4).map (smg.link_dirs_at_node n)) =
        [[-1, -1, 0, 0], [-1, -1, 1, 0], [-1, -1, 1, 0], [0, -1, 1, 0],
         [-1, -1, 0, 1], [-1, -1, 1, 1], [-1, -1, 1, 1], [0, -1, 1, 1],
         [-1, 0, 0, 1], [-1, 0, 1, 1], [-1, 0, 1, 1], [0, 0, 1, 1]] ∧
      (List.range 4).map (smg.links_at_node 5) = [8, 11, 7, 4] ∧
      (List.range 4).map (smg.links_at_node 8) = [14, -1, -1, 10] := by
  refine ⟨?_, by decide, by decide, by decide⟩
  intro g n s
  simp only [RasterGrid.links_at_node, RasterGrid.link_dirs_at_node]
  split_ifs <;> simp_all

/-- Claim C2 counterexample: on the notebook's spacing-10 scenario the
divergence recorded at node 5 is +0.00164, but the spec's orientation
convention (+1 where the edge points into the node, -1 where it points
out) evaluates to -0.00164 there, so the claimed formula disagrees with
the operator. -/
theorem C2_counterexample :
    mg10.flux_div_at_node qScenario 5 = 41 / 25000 ∧
      mg10.flux_div_specSign qScenario 5 = -(41 / 25000) ∧
      mg10.flux_div_at_node qScenario 5 ≠
        mg10.flux_div_specSign qScenario 5 := by
  have h1 : mg10.flux_div_at_node qScenario 5 = 41 / 25000 := by
    norm_num [Int.toNat, RasterGrid.flux_div_at_node,
      RasterGrid.flux_into_node_sum, Finset.sum_range_succ,
      RasterGrid.links_at_node, RasterGrid.link_dirs_at_node,
      RasterGrid.cell_at_node, RasterGrid.cell_area, RasterGrid.node_row,
      RasterGrid.node_col, RasterGrid.horizId, RasterGrid.vertId,
      RasterGrid.width_of_face_at_link, RasterGrid.is_horizontal,
      RasterGrid.band, qScenario, RasterGrid.grad_at_link,
      RasterGrid.node_at_link_head, RasterGrid.node_at_link_tail,
      RasterGrid.length_of_link, mg10, zScenario]
  have h2 : mg10.flux_div_specSign qScenario 5 = -(41 / 25000) := by
    norm_num [RasterGrid.flux_div_specSign, RasterGrid.inflow_sum,
      RasterGrid.outflow_sum, RasterGrid.number_of_links,
      Finset.sum_range_succ, RasterGrid.cell_at_node, RasterGrid.cell_area,
      RasterGrid.node_row, RasterGrid.node_col,
      RasterGrid.width_of_face_at_link, RasterGrid.is_horizontal,
      RasterGrid.band, qScenario, RasterGrid.grad_at_link,
      RasterGrid.node_at_link_head, RasterGrid.node_at_link_tail,
      RasterGrid.length_of_link, mg10, zScenario]
  refine ⟨h1, h2, ?_⟩
  rw [h1, h2]
  norm_num

/-- Claim C2 (amended): at every node bearing a DualCell the flux
divergence equals the sum over the node's faces of
(orientation_sign x q[edge] x width) divided by the cell area, where
orientation_sign is +1 where the edge direction points out of the node and
-1 where it points in; at every node without a DualCell the result is
exactly 0; and the dense result array holds exactly these per-node
values. -/
theorem C2_flux_divergence (g : RasterGrid) (q : Nat → Rat) (n : Nat)
    (hn : n < g.number_of_nodes) :
    (g.calc_flux_div_at_node q).getD n 0 = g.flux_div_at_node q n ∧
      (g.cell_at_node n = -1 → g.flux_div_at_node q n = 0) ∧
      (g.cell_at_node n ≠ -1 →
        g.flux_div_at_node q n =
          (g.outflow_sum q n - g.inflow_sum q n) / g.cell_area) := by
  refine ⟨?_, g.flux_div_at_node_cases q n hn⟩
  unfold RasterGrid.calc_flux_div_at_node
  rw [List.getD_eq_getElem?_getD, List.getElem?_map, List.getElem?_range hn]
  rfl

/-- Witness for C2 at cell node 5 of the spacing-10 grid. -/
theorem C2_flux_divergence_witness :
    5 < mg10.number_of_nodes ∧ mg10.cell_at_node 5 ≠ -1 ∧
      mg10.flux_div_at_node qScenario 5 =
        (mg10.outflow_sum qScenario 5 - mg10.inflow_sum qScenario 5) /
          mg10.cell_area :=
  ⟨by decide, by decide,
    (C2_flux_divergence mg10 qScenario 5 (by decide)).2.2 (by decide)⟩

/-- Claim C4 counterexample: on the 3 x 4 lattice with unit spacing the
gradient of the scenario field is not the printed sequence (its entry 4 is
5, not 0.5 — the printed sequence belongs to spacing 10.0). -/
theorem C4_counterexample : mg1.calc_grad_at_link zScenario ≠ gradPrinted := by
  have heval : mg1.calc_grad_at_link zScenario =
      [0, 0, 0,
       0, 5, 18/5, 0,
       5, -(7/5), -(18/5), 0,
       -5, -(18/5), 0,
       0, 0, 0] := by
    have h : List.range mg1.number_of_links =
        [0, 1, 2, 3, 4, 5, 6, 7, 8, 9, 10, 11, 12, 13, 14, 15, 16] := by
      decide
    rw [RasterGrid.calc_grad_at_link, h]
    norm_num [RasterGrid.grad_at_link, RasterGrid.node_at_link_head,
      RasterGrid.node_at_link_tail, RasterGrid.length_of_link,
      RasterGrid.is_horizontal, RasterGrid.band, mg1, zScenario]
  rw [heval]
  unfold gradPrinted
  intro hcon
  injection hcon with h0 hcon
  injection hcon with h1 hcon
  injection hcon with h2 hcon
  injection hcon with h3 hcon
  injection hcon with h4 hcon
  exact absurd h4 (by norm_num)

/-- Claim C4 (amended): on the 3 x 4 lattice with the notebook's spacing
10.0, closed perimeter and the two interior CORE nodes carrying 5.0 and
3.6, the gradient is exactly the printed 17-entry sequence, and the flux
divergence of the gradient scaled by minus the conductivity 0.01 is
exactly 0.00164 and 0.00094 at the two interior nodes and 0 elsewhere. -/
theorem C4_tiny_grid_scenario :
    mg10.calc_grad_at_link zScenario = gradPrinted ∧
      mg10.calc_flux_div_at_node qScenario = divPrinted :=
  ⟨RasterGridChecks.mg10_grad_eval, RasterGridChecks.mg10_div_eval⟩

/-- Claim C5: over any adaptive run, the cumulative recharge volume equals
the cumulative groundwater outflow volume plus the cumulative surface
outflow volume plus the storage change; in the rational model the identity
is exact (hence within any floating-point accumulation tolerance). -/
theorem C5_mass_balance (m : GWModel) (courant T : Rat) (fuel : Nat)
    (wt0 : Nat → Rat) (hpor : m.porosity ≠ 0) (hA : m.g.cell_area ≠ 0) :
    (m.stepAdaptive courant fuel T ⟨wt0, 0, 0, 0⟩).cumRecharge =
      (m.stepAdaptive courant fuel T ⟨wt0, 0, 0, 0⟩).cumGw +
        (m.stepAdaptive courant fuel T ⟨wt0, 0, 0, 0⟩).cumSw +
        (m.calc_total_storage (m.stepAdaptive courant fuel T ⟨wt0, 0, 0, 0⟩).wt -
          m.calc_total_storage wt0) := by
  have h := m.stepAdaptive_invariant courant hpor hA fuel T ⟨wt0, 0, 0, 0⟩
  dsimp only at h
  linarith

/-- Witness for C5: a concrete two-substep run on the spacing-10 model. -/
theorem C5_mass_balance_witness :
    gwDemoModel.porosity ≠ 0 ∧ gwDemoModel.g.cell_area ≠ 0 ∧
      (gwDemoModel.stepAdaptive (1/5) 2 5 ⟨fun _ => 1, 0, 0, 0⟩).cumRecharge =
        (gwDemoModel.stepAdaptive (1/5) 2 5 ⟨fun _ => 1, 0, 0, 0⟩).cumGw +
          (gwDemoModel.stepAdaptive (1/5) 2 5 ⟨fun _ => 1, 0, 0, 0⟩).cumSw +
          (gwDemoModel.calc_total_storage
              (gwDemoModel.stepAdaptive (1/5) 2 5 ⟨fun _ => 1, 0, 0, 0⟩).wt -
            gwDemoModel.calc_total_storage (fun _ => 1)) :=
  ⟨by norm_num [gwDemoModel],
    by norm_num [gwDemoModel, mg10, RasterGrid.cell_area],
    C5_mass_balance gwDemoModel (1/5) 5 2 (fun _ => 1)
      (by norm_num [gwDemoModel])
      (by norm_num [gwDemoModel, mg10, RasterGrid.cell_area])⟩
